import Mathlib

/-!
Verification of the `duplexify` crate: a `Duplex<R, W>` adapter combining a
reader and a writer into one object implementing `Read`, `Write` and
`BufRead` (and `Clone` when both halves are `Clone`).

Shallow embedding: the async `poll_*` signatures of `async_std::io` are
modelled with an explicit `Poll` type and explicit state passing.  A readable
type `R` is a type together with a `ReadImpl R` record holding its
`poll_read` operation (state in, state out); likewise `WriteImpl`,
`BufReadImpl` and `CloneImpl` model the `Write`, `BufRead` and `Clone`
traits.  Buffers are `List Nat` of bytes; the waker context is an abstract
`Ctx` value that is passed through unchanged, as in the source.
-/

namespace Duplexify

/-- The waker context (`Context<'_>` in the source), abstract: the adapter
only ever forwards it. -/
structure Ctx where
  id : Nat
deriving Repr, DecidableEq

/-- An I/O error value (`io::Error`), abstract up to a code. -/
structure IoError where
  code : Nat
deriving Repr, DecidableEq

/-- `io::Result α`. -/
abbrev IoResult (α : Type) := Except IoError α

/-- `task::Poll`: either a completed result or a would-block signal. -/
inductive Poll (α : Type) where
  | ready : α → Poll α
  | pending : Poll α
deriving Repr, DecidableEq

/-- The `Read` trait: `poll_read(&mut self, cx, buf)` returns the poll
result together with the updated reader state and the updated buffer. -/
structure ReadImpl (R : Type) where
  poll_read : R → Ctx → List Nat → Poll (IoResult Nat) × R × List Nat

/-- The `Write` trait: `poll_write`, `poll_flush`, `poll_close`, each
returning the poll result together with the updated writer state. -/
structure WriteImpl (W : Type) where
  poll_write : W → Ctx → List Nat → Poll (IoResult Nat) × W
  poll_flush : W → Ctx → Poll (IoResult Unit) × W
  poll_close : W → Ctx → Poll (IoResult Unit) × W

/-- The `BufRead` trait (which extends `Read`): `poll_fill_buf` exposes the
internal buffer without consuming, `consume amt` advances past `amt`
already-peeked bytes. -/
structure BufReadImpl (R : Type) extends ReadImpl R where
  poll_fill_buf : R → Ctx → Poll (IoResult (List Nat)) × R
  consume : R → Nat → R

/-- The `Clone` trait: duplication with independent-but-equal state. -/
structure CloneImpl (T : Type) where
  clone : T → T

/-- `Duplex<R, W>`: holds a reader and a writer, nothing else
(src/lib.rs lines 47-56). -/
structure Duplex (R W : Type) where
  reader : R
  writer : W
deriving Repr, DecidableEq

/-- `Duplex::new(reader, writer)` (src/lib.rs lines 60-62). -/
def Duplex.new {R W : Type} (reader : R) (writer : W) : Duplex R W :=
  ⟨reader, writer⟩

/-- `Duplex::into_inner(self) -> (R, W)` (src/lib.rs lines 65-67). -/
def Duplex.into_inner {R W : Type} (d : Duplex R W) : R × W :=
  (d.reader, d.writer)

/-- `impl<R: Read, W> Read for Duplex<R, W>`: `poll_read` projects the
reader and delegates; the writer field is untouched
(src/lib.rs lines 70-79). -/
def Duplex.poll_read {R W : Type} (ri : ReadImpl R) (d : Duplex R W)
    (cx : Ctx) (buf : List Nat) : Poll (IoResult Nat) × Duplex R W × List Nat :=
  let p := ri.poll_read d.reader cx buf
  (p.1, ⟨p.2.1, d.writer⟩, p.2.2)

/-- `impl<R, W: Write> Write for Duplex<R, W>`: `poll_write` projects the
writer and delegates; the reader field is untouched
(src/lib.rs lines 82-89). -/
def Duplex.poll_write {R W : Type} (wi : WriteImpl W) (d : Duplex R W)
    (cx : Ctx) (buf : List Nat) : Poll (IoResult Nat) × Duplex R W :=
  let p := wi.poll_write d.writer cx buf
  (p.1, ⟨d.reader, p.2⟩)

/-- `poll_flush` delegates to the writer (src/lib.rs lines 91-94). -/
def Duplex.poll_flush {R W : Type} (wi : WriteImpl W) (d : Duplex R W)
    (cx : Ctx) : Poll (IoResult Unit) × Duplex R W :=
  let p := wi.poll_flush d.writer cx
  (p.1, ⟨d.reader, p.2⟩)

/-- `poll_close` delegates to the writer (src/lib.rs lines 96-99). -/
def Duplex.poll_close {R W : Type} (wi : WriteImpl W) (d : Duplex R W)
    (cx : Ctx) : Poll (IoResult Unit) × Duplex R W :=
  let p := wi.poll_close d.writer cx
  (p.1, ⟨d.reader, p.2⟩)

/-- `impl<R: BufRead, W> BufRead for Duplex<R, W>`: `poll_fill_buf`
delegates to the reader (src/lib.rs lines 103-106). -/
def Duplex.poll_fill_buf {R W : Type} (bi : BufReadImpl R) (d : Duplex R W)
    (cx : Ctx) : Poll (IoResult (List Nat)) × Duplex R W :=
  let p := bi.poll_fill_buf d.reader cx
  (p.1, ⟨p.2, d.writer⟩)

/-- `consume` delegates to the reader (src/lib.rs lines 107-110). -/
def Duplex.consume {R W : Type} (bi : BufReadImpl R) (d : Duplex R W)
    (amt : Nat) : Duplex R W :=
  ⟨bi.consume d.reader amt, d.writer⟩

/-- `impl<R: Clone, W: Clone> Clone for Duplex<R, W>`: clones each field
(src/lib.rs lines 113-124). -/
def Duplex.clone {R W : Type} (cr : CloneImpl R) (cw : CloneImpl W)
    (d : Duplex R W) : Duplex R W :=
  ⟨cr.clone d.reader, cw.clone d.writer⟩

/-! Concrete readers and writers used to exercise the adapter, modelling the
standard in-memory instances (`io::empty`, a byte-slice reader, an in-memory
sink). -/

/-- A reader already at end-of-stream (like `io::empty`): `poll_read`
returns `Ready(Ok(0))` and leaves the buffer alone. -/
def emptyRead : ReadImpl Unit :=
  ⟨fun u _ buf => (Poll.ready (Except.ok 0), u, buf)⟩

/-- An in-memory buffered reader over a list of bytes, with the `Read` and
`BufRead` semantics of a byte slice: `poll_read` copies as many bytes as fit
into the front of the buffer and advances, `poll_fill_buf` exposes all
remaining bytes, `consume` drops the given count. -/
def listRead : BufReadImpl (List Nat) where
  poll_read := fun s _ buf =>
    let k := min buf.length s.length
    (Poll.ready (Except.ok k), s.drop k, s.take k ++ buf.drop k)
  poll_fill_buf := fun s _ => (Poll.ready (Except.ok s), s)
  consume := fun s n => s.drop n

/-- State of an in-memory sink: a call counter and the recorded bytes. -/
structure SinkState where
  calls : Nat
  sink : List Nat
deriving Repr, DecidableEq

/-- The error reported by the failing sink below. -/
def failErr : IoError := ⟨7⟩

/-- A writer whose backing sink accepts the first write and reports an I/O
failure on the second write call; flush and close succeed. -/
def failOnSecondWrite : WriteImpl SinkState where
  poll_write := fun s _ buf =>
    if s.calls == 1 then (Poll.ready (Except.error failErr), ⟨s.calls + 1, s.sink⟩)
    else (Poll.ready (Except.ok buf.length), ⟨s.calls + 1, s.sink ++ buf⟩)
  poll_flush := fun s _ => (Poll.ready (Except.ok ()), s)
  poll_close := fun s _ => (Poll.ready (Except.ok ()), s)

/-- The bytes a completed read delivered: the first `k` bytes of the
post-call buffer when the result is `Ready(Ok(k))`, nothing otherwise. -/
def bytesRead (res : Poll (IoResult Nat)) (buf : List Nat) : List Nat :=
  match res with
  | Poll.ready (Except.ok k) => buf.take k
  | _ => []

/-- Reading from `listRead` with state `s` and buffer `buf` delivers exactly
the first `min buf.length s.length` bytes of `s`. -/
theorem listRead_bytes (s : List Nat) (cx : Ctx) (buf : List Nat) :
    bytesRead (listRead.poll_read s cx buf).1 (listRead.poll_read s cx buf).2.2 =
      s.take (min buf.length s.length) := by
  have hk : min buf.length s.length ≤ s.length := Nat.min_le_right _ _
  have hlen : (s.take (min buf.length s.length)).length = min buf.length s.length := by
    simp [List.length_take, Nat.min_eq_left hk]
  simp only [listRead, bytesRead]
  exact List.take_left' hlen

/-! Claim theorems. -/

/-- C1: `poll_read` on a `Duplex` returns exactly what the wrapped reader's
`poll_read` returns on the same buffer and context — same count, same
pending signal, same end-of-stream, same failure, no transformation — and in
particular a reader already at end-of-stream yields `Ready(Ok(0))` with the
buffer untouched and no error. -/
theorem read_passthrough :
    (∀ (R W : Type) (ri : ReadImpl R) (d : Duplex R W) (cx : Ctx)
        (buf : List Nat),
      Duplex.poll_read ri d cx buf =
        ((ri.poll_read d.reader cx buf).1,
          Duplex.new (ri.poll_read d.reader cx buf).2.1 d.writer,
          (ri.poll_read d.reader cx buf).2.2)) ∧
    (∀ (W : Type) (w : W) (cx : Ctx) (buf : List Nat),
      (Duplex.poll_read emptyRead (Duplex.new () w) cx buf).1 =
          Poll.ready (Except.ok 0) ∧
        (Duplex.poll_read emptyRead (Duplex.new () w) cx buf).2.2 = buf) :=
  ⟨fun _ _ _ _ _ _ => rfl, fun _ _ _ _ => ⟨rfl, rfl⟩⟩

/-- C2: `poll_write` on a `Duplex` returns exactly the wrapped writer's
result on the same bytes and leaves the writer in exactly the state a direct
write would; concretely, over a sink that fails on its second write, the
first write through the adapter succeeds and records the bytes, and the
second surfaces that exact failure unchanged with the first write's bytes
still recorded. -/
theorem write_passthrough :
    (∀ (R W : Type) (wi : WriteImpl W) (d : Duplex R W) (cx : Ctx)
        (buf : List Nat),
      Duplex.poll_write wi d cx buf =
        ((wi.poll_write d.writer cx buf).1,
          Duplex.new d.reader (wi.poll_write d.writer cx buf).2)) ∧
    (∀ (cx : Ctx) (b1 b2 : List Nat),
      (Duplex.poll_write failOnSecondWrite
            (Duplex.new () (SinkState.mk 0 [])) cx b1).1 =
          Poll.ready (Except.ok b1.length) ∧
        (Duplex.poll_write failOnSecondWrite
            (Duplex.new () (SinkState.mk 0 [])) cx b1).2.writer.sink = b1 ∧
        (Duplex.poll_write failOnSecondWrite
            (Duplex.poll_write failOnSecondWrite
              (Duplex.new () (SinkState.mk 0 [])) cx b1).2 cx b2).1 =
          Poll.ready (Except.error failErr) ∧
        (Duplex.poll_write failOnSecondWrite
            (Duplex.poll_write failOnSecondWrite
              (Duplex.new () (SinkState.mk 0 [])) cx b1).2 cx b2).2.writer.sink =
          b1) := by
  refine ⟨fun _ _ _ _ _ _ => rfl, fun cx b1 b2 => ?_⟩
  simp [Duplex.poll_write, Duplex.new, failOnSecondWrite]

/-- C3: decomposing a freshly constructed adapter gives back exactly the
reader and writer it was built from: `into_inner (new r w) = (r, w)`. -/
theorem construct_decompose_roundtrip :
    ∀ (R W : Type) (r : R) (w : W),
      Duplex.into_inner (Duplex.new r w) = (r, w) :=
  fun _ _ _ _ => rfl

/-- C4: every result — in particular every error — any `Duplex` operation
returns is exactly the result of the single delegated call on the wrapped
reader or writer: the poll result of each of `poll_read`, `poll_write`,
`poll_flush`, `poll_close` and `poll_fill_buf` equals the wrapped
operation's poll result, so the adapter never invents, suppresses, retries
or translates an error. -/
theorem error_passthrough :
    ∀ (R W : Type) (ri : ReadImpl R) (bi : BufReadImpl R) (wi : WriteImpl W)
      (d : Duplex R W) (cx : Ctx) (buf wbuf : List Nat),
      (Duplex.poll_read ri d cx buf).1 = (ri.poll_read d.reader cx buf).1 ∧
        (Duplex.poll_write wi d cx wbuf).1 =
          (wi.poll_write d.writer cx wbuf).1 ∧
        (Duplex.poll_flush wi d cx).1 = (wi.poll_flush d.writer cx).1 ∧
        (Duplex.poll_close wi d cx).1 = (wi.poll_close d.writer cx).1 ∧
        (Duplex.poll_fill_buf bi d cx).1 = (bi.poll_fill_buf d.reader cx).1 :=
  fun _ _ _ _ _ _ _ _ _ => ⟨rfl, rfl, rfl, rfl, rfl⟩

/-- C6: `poll_read` mutates only the reader field (the writer is preserved
and the reader becomes exactly what the wrapped reader's call produces),
while `poll_write`, `poll_flush` and `poll_close` mutate only the writer
field (the reader is preserved); in particular `poll_close` touches the
write side only. -/
theorem frame_effects :
    ∀ (R W : Type) (ri : ReadImpl R) (wi : WriteImpl W) (d : Duplex R W)
      (cx : Ctx) (buf wbuf : List Nat),
      (Duplex.poll_read ri d cx buf).2.1.writer = d.writer ∧
        (Duplex.poll_read ri d cx buf).2.1.reader =
          (ri.poll_read d.reader cx buf).2.1 ∧
        (Duplex.poll_write wi d cx wbuf).2.reader = d.reader ∧
        (Duplex.poll_write wi d cx wbuf).2.writer =
          (wi.poll_write d.writer cx wbuf).2 ∧
        (Duplex.poll_flush wi d cx).2.reader = d.reader ∧
        (Duplex.poll_close wi d cx).2.reader = d.reader ∧
        (Duplex.poll_close wi d cx).2.writer = (wi.poll_close d.writer cx).2 :=
  fun _ _ _ _ _ _ _ _ => ⟨rfl, rfl, rfl, rfl, rfl, rfl, rfl⟩

/-- C7: `poll_flush` and `poll_close` through the adapter return the same
result and leave the wrapped writer in the same state as calling the
writer's own flush and close directly. -/
theorem flush_close_passthrough :
    ∀ (R W : Type) (wi : WriteImpl W) (r : R) (w : W) (cx : Ctx),
      (Duplex.poll_flush wi (Duplex.new r w) cx).1 = (wi.poll_flush w cx).1 ∧
        (Duplex.poll_flush wi (Duplex.new r w) cx).2.writer =
          (wi.poll_flush w cx).2 ∧
        (Duplex.poll_close wi (Duplex.new r w) cx).1 = (wi.poll_close w cx).1 ∧
        (Duplex.poll_close wi (Duplex.new r w) cx).2.writer =
          (wi.poll_close w cx).2 :=
  fun _ _ _ _ _ _ => ⟨rfl, rfl, rfl, rfl⟩

/-- C8: given duplication capability on both halves (the `Clone` impl
requires exactly `R : Clone` and `W : Clone`), cloning a `Duplex` produces a
fresh adapter whose reader is the clone of the original reader and whose
writer is the clone of the original writer — the adapter adds no sharing of
its own. -/
theorem clone_duplicates_components :
    ∀ (R W : Type) (cr : CloneImpl R) (cw : CloneImpl W) (d : Duplex R W),
      Duplex.clone cr cw d =
        Duplex.new (cr.clone d.reader) (cw.clone d.writer) :=
  fun _ _ _ _ _ => rfl

/-- C9: each side's capability is available independently of the other
side's type: `poll_read` is defined for every readable `R` with `W` a bare
type carrying no capability, `poll_fill_buf`/`consume` for every
buffered-readable `R` with `W` bare, and `poll_write`/`poll_flush`/
`poll_close` for every writable `W` with `R` bare. -/
theorem capability_independence :
    (∀ (R W : Type) (ri : ReadImpl R) (d : Duplex R W) (cx : Ctx)
        (buf : List Nat),
      (Duplex.poll_read ri d cx buf).1 = (ri.poll_read d.reader cx buf).1) ∧
    (∀ (R W : Type) (bi : BufReadImpl R) (d : Duplex R W) (cx : Ctx)
        (amt : Nat),
      (Duplex.poll_fill_buf bi d cx).1 = (bi.poll_fill_buf d.reader cx).1 ∧
        Duplex.consume bi d amt = Duplex.new (bi.consume d.reader amt) d.writer) ∧
    (∀ (R W : Type) (wi : WriteImpl W) (d : Duplex R W) (cx : Ctx)
        (wbuf : List Nat),
      (Duplex.poll_write wi d cx wbuf).1 = (wi.poll_write d.writer cx wbuf).1 ∧
        (Duplex.poll_flush wi d cx).1 = (wi.poll_flush d.writer cx).1 ∧
        (Duplex.poll_close wi d cx).1 = (wi.poll_close d.writer cx).1) :=
  ⟨fun _ _ _ _ _ _ => rfl, fun _ _ _ _ _ _ => ⟨rfl, rfl⟩,
    fun _ _ _ _ _ _ => ⟨rfl, rfl, rfl⟩⟩

/-- The peek/consume/read agreement property for the in-memory buffered
reader through the adapter: `poll_fill_buf` exposes the whole source, and
the first `n` peeked bytes followed by the bytes delivered by a read after
`consume n` (into a zeroed buffer of capacity `cap`) equal the bytes a
plain read with total capacity `n + cap` delivers without any peeking. -/
def peekConsumeReadAgrees (W : Type) (w : W) (cx : Ctx) (src : List Nat)
    (n cap : Nat) : Prop :=
  (Duplex.poll_fill_buf listRead (Duplex.new src w) cx).1 =
      Poll.ready (Except.ok src) ∧
    src.take n ++
        bytesRead
          (Duplex.poll_read listRead.toReadImpl
            (Duplex.consume listRead
              (Duplex.poll_fill_buf listRead (Duplex.new src w) cx).2 n)
            cx (List.replicate cap 0)).1
          (Duplex.poll_read listRead.toReadImpl
            (Duplex.consume listRead
              (Duplex.poll_fill_buf listRead (Duplex.new src w) cx).2 n)
            cx (List.replicate cap 0)).2.2 =
      bytesRead
        (Duplex.poll_read listRead.toReadImpl (Duplex.new src w) cx
          (List.replicate (n + cap) 0)).1
        (Duplex.poll_read listRead.toReadImpl (Duplex.new src w) cx
          (List.replicate (n + cap) 0)).2.2

/-- C5: `poll_fill_buf` and `consume` on the adapter delegate directly to
the wrapped reader's operations with `amt` forwarded unchanged and no added
bounds checking, and for every byte source a peek followed by `consume n`
followed by a read yields the same bytes in the same order as never peeking
and just reading (provided `n` is within the peeked bytes and the read
capacity covers the rest). -/
theorem bufread_peek_consume_read :
    (∀ (R W : Type) (bi : BufReadImpl R) (d : Duplex R W) (cx : Ctx),
      Duplex.poll_fill_buf bi d cx =
        ((bi.poll_fill_buf d.reader cx).1,
          Duplex.new (bi.poll_fill_buf d.reader cx).2 d.writer)) ∧
    (∀ (R W : Type) (bi : BufReadImpl R) (d : Duplex R W) (amt : Nat),
      Duplex.consume bi d amt =
        Duplex.new (bi.consume d.reader amt) d.writer) ∧
    (∀ (W : Type) (w : W) (cx : Ctx) (src : List Nat) (n cap : Nat),
      n ≤ src.length → src.length ≤ n + cap →
        peekConsumeReadAgrees W w cx src n cap) := by
  refine ⟨fun _ _ _ _ _ => rfl, fun _ _ _ _ _ => rfl, ?_⟩
  intro W w cx src n cap h1 h2
  refine ⟨rfl, ?_⟩
  show src.take n ++
      bytesRead (listRead.poll_read (src.drop n) cx (List.replicate cap 0)).1
        (listRead.poll_read (src.drop n) cx (List.replicate cap 0)).2.2 =
    bytesRead (listRead.poll_read src cx (List.replicate (n + cap) 0)).1
      (listRead.poll_read src cx (List.replicate (n + cap) 0)).2.2
  rw [listRead_bytes, listRead_bytes]
  simp only [List.length_replicate, List.length_drop]
  have h3 : src.length - n ≤ cap := by omega
  rw [Nat.min_eq_right h3, Nat.min_eq_right h2, ← List.length_drop,
    List.take_length, List.take_length, List.take_append_drop]

/-- Witness for C5 at a concrete input: source `[1, 2, 3]`, peek, consume
one byte, then read with capacity two. -/
theorem bufread_peek_consume_read_witness :
    1 ≤ ([1, 2, 3] : List Nat).length ∧
      ([1, 2, 3] : List Nat).length ≤ 1 + 2 ∧
      peekConsumeReadAgrees Unit () ⟨0⟩ [1, 2, 3] 1 2 :=
  ⟨by decide, by decide,
    bufread_peek_consume_read.2.2 Unit () ⟨0⟩ [1, 2, 3] 1 2 (by decide)
      (by decide)⟩

/-- C10: cloning does not consume or alter the original adapter: the clone
is a separate value built from the components' clones, while the original
still holds its own reader and writer and remains fully usable — it still
decomposes to its own pair and its read/write operations still delegate to
its own components. -/
theorem clone_preserves_original :
    ∀ (R W : Type) (cr : CloneImpl R) (cw : CloneImpl W) (d : Duplex R W)
      (ri : ReadImpl R) (wi : WriteImpl W) (cx : Ctx) (buf wbuf : List Nat),
      (Duplex.clone cr cw d).reader = cr.clone d.reader ∧
        (Duplex.clone cr cw d).writer = cw.clone d.writer ∧
        Duplex.into_inner d = (d.reader, d.writer) ∧
        (Duplex.poll_read ri d cx buf).1 = (ri.poll_read d.reader cx buf).1 ∧
        (Duplex.poll_write wi d cx wbuf).1 =
          (wi.poll_write d.writer cx wbuf).1 :=
  fun _ _ _ _ _ _ _ _ _ _ => ⟨rfl, rfl, rfl, rfl, rfl⟩

end Duplexify
